import Mathlib

/-!
Formal model of the fennel earthquake-data-viewer pipeline
(src/fennel/app/core.py).  The UI scaffolding is ignored; the model covers
the coordinate transforms, the per-element triangle geometry, the
per-mesh-group steep-dip projector loop, and the dataset assembly of
MyTrameApp._load_data.  Machine floats are modelled by real numbers, and
the numpy array operations by lists and per-row functions.
-/

noncomputable section

open Real

/-- Constant KM2M from core.py (1.0e3). -/
def KM2M : ℝ := 1000

/-- Constant RADIUS_EARTH from core.py. -/
def RADIUS_EARTH : ℝ := 6371000

/-- numpy deg2rad. -/
def deg2rad (d : ℝ) : ℝ := d * π / 180

/-- numpy rad2deg. -/
def rad2deg (r : ℝ) : ℝ := r * 180 / π

/-- wgs84_to_web_mercator from core.py: x = R deg2rad lon,
y = R log (tan (pi/4 + deg2rad lat / 2)) with R = 6378137.0. -/
def wgs84_to_web_mercator (lon lat : ℝ) : ℝ × ℝ :=
  (6378137.0 * deg2rad lon, 6378137.0 * Real.log (Real.tan (π / 4 + deg2rad lat / 2)))

/-- wrap2360 from core.py: values below zero get 360 added (once). -/
def wrap2360 (lon : ℝ) : ℝ := if lon < 0 then lon + 360 else lon

/-- sph2cart from core.py.  Note the inputs are interpreted in degrees:
the function applies deg2rad to both angles before taking cosines. -/
def sph2cart (lon lat radius : ℝ) : ℝ × ℝ × ℝ :=
  (radius * Real.cos (deg2rad lat) * Real.cos (deg2rad lon),
   radius * Real.cos (deg2rad lat) * Real.sin (deg2rad lon),
   radius * Real.sin (deg2rad lat))

/-- numpy arctan2 y x (signed-zero distinctions collapse over the reals).
Range is contained in (-pi, pi]. -/
def arctan2 (y x : ℝ) : ℝ :=
  if 0 < x then Real.arctan (y / x)
  else if x < 0 then
    (if 0 ≤ y then Real.arctan (y / x) + π else Real.arctan (y / x) - π)
  else
    (if 0 < y then π / 2 else if y < 0 then -(π / 2) else 0)

/-- cart2sph from core.py: azimuth and elevation via arctan2 (radians),
radius as the Euclidean norm. -/
def cart2sph (x y z : ℝ) : ℝ × ℝ × ℝ :=
  (arctan2 y x, arctan2 z (Real.sqrt (x ^ 2 + y ^ 2)),
   Real.sqrt (x ^ 2 + y ^ 2 + z ^ 2))

/-- Composition used to state the round-trip property of sph2cart and
cart2sph. -/
def roundTrip (az el r : ℝ) : ℝ × ℝ × ℝ :=
  cart2sph (sph2cart az el r).1 (sph2cart az el r).2.1 (sph2cart az el r).2.2

/-- One row of the model_meshes.csv table: three geodetic vertices
(lon, lat in degrees, dep in km) plus the parent-surface index. -/
structure MeshVertexRow where
  lon1 : ℝ
  lat1 : ℝ
  dep1 : ℝ
  lon2 : ℝ
  lat2 : ℝ
  dep2 : ℝ
  lon3 : ℝ
  lat3 : ℝ
  dep3 : ℝ
  mesh_idx : ℤ

/-- Longitude wrapping applied to the mesh table before the geometry step
(core.py lines 204-206). -/
def wrapMeshRow (e : MeshVertexRow) : MeshVertexRow :=
  { e with lon1 := wrap2360 e.lon1, lon2 := wrap2360 e.lon2, lon3 := wrap2360 e.lon3 }

/-- tri_leg1 from core.py: vertex2 - vertex1 in (rad, rad, normalized
radius) pseudo-Cartesian coordinates. -/
def triLeg1 (e : MeshVertexRow) : ℝ × ℝ × ℝ :=
  (deg2rad (e.lon2 - e.lon1), deg2rad (e.lat2 - e.lat1),
   (1 + KM2M * e.dep2 / RADIUS_EARTH) - (1 + KM2M * e.dep1 / RADIUS_EARTH))

/-- tri_leg2 from core.py: vertex3 - vertex1. -/
def triLeg2 (e : MeshVertexRow) : ℝ × ℝ × ℝ :=
  (deg2rad (e.lon3 - e.lon1), deg2rad (e.lat3 - e.lat1),
   (1 + KM2M * e.dep3 / RADIUS_EARTH) - (1 + KM2M * e.dep1 / RADIUS_EARTH))

/-- numpy cross for a single pair of 3-vectors. -/
def cross3 (a b : ℝ × ℝ × ℝ) : ℝ × ℝ × ℝ :=
  (a.2.1 * b.2.2 - a.2.2 * b.2.1,
   a.2.2 * b.1 - a.1 * b.2.2,
   a.1 * b.2.1 - a.2.1 * b.1)

/-- norm_vec from core.py, one element. -/
def normVec (e : MeshVertexRow) : ℝ × ℝ × ℝ := cross3 (triLeg1 e) (triLeg2 e)

/-- strike from core.py line 222 as a function of the normal components:
wrap2360 (-(rad2deg azimuth)) with azimuth = (cart2sph nx ny nz).1. -/
def strikeOfNormal (nx ny nz : ℝ) : ℝ := wrap2360 (-(rad2deg (cart2sph nx ny nz).1))

/-- dip before the reflection step (core.py line 223):
90 - rad2deg elevation. -/
def dipRaw (nx ny nz : ℝ) : ℝ := 90 - rad2deg (cart2sph nx ny nz).2.1

/-- dip after the reflection step (core.py line 224): entries above 90 are
replaced by 180 - dip. -/
def dipOfNormal (nx ny nz : ℝ) : ℝ :=
  if dipRaw nx ny nz > 90 then 180 - dipRaw nx ny nz else dipRaw nx ny nz

/-- Per-element strike of a mesh row. -/
def elementStrike (e : MeshVertexRow) : ℝ :=
  strikeOfNormal (normVec e).1 (normVec e).2.1 (normVec e).2.2

/-- Per-element dip of a mesh row. -/
def elementDip (e : MeshVertexRow) : ℝ :=
  dipOfNormal (normVec e).1 (normVec e).2.1 (normVec e).2.2

/-- One mesh element as seen by the steep-dip loop (core.py lines
229-252): the precomputed dip and strike together with the vertex
coordinates and group index the loop reads and writes. -/
structure MeshRow where
  dip : ℝ
  strike : ℝ
  dep1 : ℝ
  dep2 : ℝ
  dep3 : ℝ
  lon1 : ℝ
  lat1 : ℝ
  lon2 : ℝ
  lat2 : ℝ
  lon3 : ℝ
  lat3 : ℝ
  mesh_idx : ℤ

/-- Pack the computed per-element attributes into a loop row. -/
def toMeshRow (e : MeshVertexRow) : MeshRow :=
  { dip := elementDip e, strike := elementStrike e,
    dep1 := e.dep1, dep2 := e.dep2, dep3 := e.dep3,
    lon1 := e.lon1, lat1 := e.lat1, lon2 := e.lon2, lat2 := e.lat2,
    lon3 := e.lon3, lat3 := e.lat3, mesh_idx := e.mesh_idx }

/-- numpy mean of a list (sum divided by length). -/
def mean (xs : List ℝ) : ℝ := xs.sum / xs.length

/-- The depth-proportional lateral offset magnitude of core.py lines
235-252: rad2deg (abs (KM2M * dep / RADIUS_EARTH)). -/
def depthOffset (dep : ℝ) : ℝ := rad2deg |KM2M * dep / RADIUS_EARTH|

/-- Body of the steep-dip update for one row (core.py lines 235-252):
both longitude and latitude of every vertex move by the vertex-depth
offset, resolved along the down-dip azimuth. -/
def offsetRow (dip_dir : ℝ) (r : MeshRow) : MeshRow :=
  { r with
    lon1 := r.lon1 + Real.sin dip_dir * depthOffset r.dep1,
    lat1 := r.lat1 + Real.cos dip_dir * depthOffset r.dep1,
    lon2 := r.lon2 + Real.sin dip_dir * depthOffset r.dep2,
    lat2 := r.lat2 + Real.cos dip_dir * depthOffset r.dep2,
    lon3 := r.lon3 + Real.sin dip_dir * depthOffset r.dep3,
    lat3 := r.lat3 + Real.cos dip_dir * depthOffset r.dep3 }

/-- Group mean dip (np.mean (dip [this_mesh_els])). -/
def groupMeanDip (grp : List MeshRow) : ℝ := mean (grp.map MeshRow.dip)

/-- Down-dip azimuth of a group (core.py line 234):
np.mean (np.deg2rad (strike [this_mesh_els] + 90)). -/
def groupDipDir (grp : List MeshRow) : ℝ :=
  mean (grp.map (fun r => deg2rad (r.strike + 90)))

/-- Effect of one iteration of the steep-dip loop on the rows of its own
group: offset every row when the group mean dip exceeds 75, otherwise
leave the rows alone. -/
def projectGroup (grp : List MeshRow) : List MeshRow :=
  if groupMeanDip grp > 75 then grp.map (offsetRow (groupDipDir grp)) else grp

/-- dip values of the group with index i, read off the current rows
(dip [mesh_idx == i]). -/
def groupDips (rows : List MeshRow) (i : ℤ) : List ℝ :=
  (rows.filter (fun r => r.mesh_idx = i)).map MeshRow.dip

/-- Down-dip azimuth of the group with index i, read off the current
rows. -/
def groupDipDirAt (rows : List MeshRow) (i : ℤ) : ℝ :=
  mean ((rows.filter (fun r => r.mesh_idx = i)).map (fun r => deg2rad (r.strike + 90)))

/-- The masked in-place update of one loop iteration: rows of group i
are offset, all other rows untouched. -/
def maskOffset (dip_dir : ℝ) (i : ℤ) (r : MeshRow) : MeshRow :=
  if r.mesh_idx = i then offsetRow dip_dir r else r

/-- numpy integer indexing for the flag write proj_mesh_flag [i] = 1 on
an array of length n: an index in [0, n) addresses slot i directly, an
index in [-n, 0) wraps around and addresses slot n + i, and anything
else raises an IndexError, modelled by none. -/
def npSetFlag (flags : List ℕ) (i : ℤ) (v : ℕ) : Option (List ℕ) :=
  if 0 ≤ i ∧ i < (flags.length : ℤ) then some (flags.set i.toNat v)
  else if -(flags.length : ℤ) ≤ i ∧ i < 0 then
    some (flags.set ((flags.length : ℤ) + i).toNat v)
  else none

/-- The steep-dip loop of core.py lines 229-252, one group id at a time.
An iteration on a steep group first writes its flag with numpy indexing
semantics (wrapping negative ids, raising IndexError outside [-n, n)),
then offsets the rows of the group. -/
def steepLoopAux : List ℤ → List ℕ → List MeshRow → Option (List ℕ × List MeshRow)
  | [], flags, rows => some (flags, rows)
  | i :: rest, flags, rows =>
    if mean (groupDips rows i) > 75 then
      (npSetFlag flags i 1).bind (fun flags2 =>
        steepLoopAux rest flags2
          (rows.map (maskOffset (groupDipDirAt rows i) i)))
    else steepLoopAux rest flags rows

/-- mesh_list = np.unique (mesh_idx): the distinct group ids.  np.unique
returns them sorted; the loop outcome does not depend on the iteration
order because distinct groups touch disjoint rows, so the distinct ids in
first-occurrence order model the same loop. -/
def meshList (rows : List MeshRow) : List ℤ := (rows.map MeshRow.mesh_idx).dedup

/-- The whole steep-dip projection step: proj_mesh_flag =
np.zeros_like (mesh_list), then the loop over the distinct ids. -/
def steepLoop (rows : List MeshRow) : Option (List ℕ × List MeshRow) :=
  steepLoopAux (meshList rows) (List.replicate (meshList rows).length 0) rows

/-- One row of model_station.csv (the columns _load_data reads). -/
structure Station where
  lon : ℝ
  lat : ℝ
  model_east_vel_residual : ℝ
  model_north_vel_residual : ℝ

/-- resmag from core.py lines 173-176. -/
def resmag (s : Station) : ℝ :=
  Real.sqrt (s.model_east_vel_residual ^ 2 + s.model_north_vel_residual ^ 2)

/-- One row of model_segment.csv (the columns _load_data reads). -/
structure Segment where
  lon1 : ℝ
  lat1 : ℝ
  lon2 : ℝ
  lat2 : ℝ

/-- The three tables read by one folder load. -/
structure RawInput where
  station : List Station
  segment : List Segment
  meshRows : List MeshRow

/-- The assembled per-slot data dictionary of core.py lines 259-276
(the derived numeric fields). -/
structure Dataset where
  resmagList : List ℝ
  x_station : List ℝ
  y_station : List ℝ
  x1_seg : List ℝ
  y1_seg : List ℝ
  x2_seg : List ℝ
  y2_seg : List ℝ
  flags : List ℕ
  x1_mesh : List ℝ
  y1_mesh : List ℝ
  x2_mesh : List ℝ
  y2_mesh : List ℝ
  x3_mesh : List ℝ
  y3_mesh : List ℝ

/-- The load pipeline of _load_data after the tables are read: residual
magnitudes, station and segment projection, the steep-dip loop on the
mesh rows, and the final mesh projection.  A failure inside the loop
(the out-of-bounds flag write) aborts the whole load. -/
def buildDataset (inp : RawInput) : Option Dataset :=
  match steepLoop inp.meshRows with
  | none => none
  | some (flags, rows) =>
    some
      { resmagList := inp.station.map resmag,
        x_station := inp.station.map (fun s => (wgs84_to_web_mercator s.lon s.lat).1),
        y_station := inp.station.map (fun s => (wgs84_to_web_mercator s.lon s.lat).2),
        x1_seg := inp.segment.map (fun s => (wgs84_to_web_mercator s.lon1 s.lat1).1),
        y1_seg := inp.segment.map (fun s => (wgs84_to_web_mercator s.lon1 s.lat1).2),
        x2_seg := inp.segment.map (fun s => (wgs84_to_web_mercator s.lon2 s.lat2).1),
        y2_seg := inp.segment.map (fun s => (wgs84_to_web_mercator s.lon2 s.lat2).2),
        flags := flags,
        x1_mesh := rows.map (fun r => (wgs84_to_web_mercator r.lon1 r.lat1).1),
        y1_mesh := rows.map (fun r => (wgs84_to_web_mercator r.lon1 r.lat1).2),
        x2_mesh := rows.map (fun r => (wgs84_to_web_mercator r.lon2 r.lat2).1),
        y2_mesh := rows.map (fun r => (wgs84_to_web_mercator r.lon2 r.lat2).2),
        x3_mesh := rows.map (fun r => (wgs84_to_web_mercator r.lon3 r.lat3).1),
        y3_mesh := rows.map (fun r => (wgs84_to_web_mercator r.lon3 r.lat3).2) }

/-- The two per-slot dataset references of the app
(folder_1_data and folder_2_data). -/
structure AppState where
  folder_1_data : Option Dataset
  folder_2_data : Option Dataset

/-- _load_data seen from the app state: the slot reference is assigned
once, after the whole dataset has been built; an aborted build leaves the
state untouched. -/
def loadData (st : AppState) (folder_number : ℕ) (inp : RawInput) : AppState :=
  match buildDataset inp with
  | none => st
  | some d =>
    if folder_number = 1 then { st with folder_1_data := some d }
    else { st with folder_2_data := some d }

/-- C6 (counterexample): wrap2360 is not idempotent on every real input.
At lon = -400 one application gives -40 (still negative) and a second
application gives 320, so applying twice differs from applying once. -/
theorem wrap2360_not_idempotent_below :
    wrap2360 (wrap2360 (-400)) ≠ wrap2360 (-400) := by
  norm_num [wrap2360]

/-- C6 (amended): wrap2360 is idempotent on every longitude at least -360
(in particular on the geodetic range [-180, 180] it is applied to); every
value in [0, 360) passes through unchanged; every negative value has 360
added once. -/
theorem wrap2360_props (lon : ℝ) :
    (-360 ≤ lon → wrap2360 (wrap2360 lon) = wrap2360 lon) ∧
    (0 ≤ lon → lon < 360 → wrap2360 lon = lon) ∧
    (lon < 0 → wrap2360 lon = lon + 360) := by
  unfold wrap2360
  refine ⟨?_, ?_, ?_⟩ <;> intros <;> split_ifs <;> linarith

/-- C6 (witness): wrap2360_props applied at lon = -10 and lon = 10. -/
theorem wrap2360_props_witness :
    (wrap2360 (wrap2360 (-10)) = wrap2360 (-10) ∧ wrap2360 (-10) = -10 + 360) ∧
      wrap2360 10 = 10 :=
  ⟨⟨(wrap2360_props (-10)).1 (by norm_num), (wrap2360_props (-10)).2.2 (by norm_num)⟩,
    (wrap2360_props 10).2.1 (by norm_num) (by norm_num)⟩

/-- C8: the dataset assembled from the single station row lon = -122,
lat = 37, east residual 3, north residual 4 has residual magnitude 5 and
projected x equal to 6378137.0 * deg2rad (-122). -/
theorem station_end_to_end :
    (buildDataset ⟨[⟨-122, 37, 3, 4⟩], [], []⟩).map Dataset.resmagList = some [5] ∧
    (buildDataset ⟨[⟨-122, 37, 3, 4⟩], [], []⟩).map Dataset.x_station
      = some [6378137.0 * deg2rad (-122)] := by
  have hs : steepLoop ([] : List MeshRow) = some ([], []) := by
    simp [steepLoop, meshList, steepLoopAux]
  constructor
  · simp only [buildDataset, hs, Option.map_some, List.map_cons, List.map_nil]
    simp only [resmag]
    rw [show ((3 : ℝ) ^ 2 + 4 ^ 2) = 5 ^ 2 by norm_num,
      Real.sqrt_sq (by norm_num : (0 : ℝ) ≤ 5)]
    rfl
  · simp only [buildDataset, hs, Option.map_some, List.map_cons, List.map_nil]
    simp [wgs84_to_web_mercator]

/-- C9: if the build pipeline fails (the steep-dip flag write aborts the
load), the state of both folder slots is left unchanged: the slot
reference is only assigned once, after the dataset is fully built. -/
theorem loadData_failure_preserves_state (st : AppState) (slot : ℕ) (inp : RawInput)
    (h : buildDataset inp = none) : loadData st slot inp = st := by
  unfold loadData
  rw [h]

/-- C9 (witness): a concrete failing load (one mesh row of dip 80 whose
group id 1 is outside the one-slot flag array) leaves the empty app state
unchanged. -/
theorem loadData_failure_preserves_state_witness :
    loadData ⟨none, none⟩ 1 ⟨[], [], [⟨80, 0, -10, -10, -10, 1, 2, 3, 4, 5, 6, 1⟩]⟩
      = ⟨none, none⟩ := by
  refine loadData_failure_preserves_state _ _ _ ?_
  have hm : mean (groupDips [⟨80, 0, -10, -10, -10, 1, 2, 3, 4, 5, 6, 1⟩] 1) = 80 := by
    simp [groupDips, mean]
  have hloop : steepLoop [(⟨80, 0, -10, -10, -10, 1, 2, 3, 4, 5, 6, 1⟩ : MeshRow)]
      = none := by
    unfold steepLoop
    rw [show meshList [(⟨80, 0, -10, -10, -10, 1, 2, 3, 4, 5, 6, 1⟩ : MeshRow)] = [1]
      from by simp [meshList]]
    unfold steepLoopAux
    rw [if_pos (by rw [hm]; norm_num)]
    norm_num [npSetFlag, List.length_replicate]
  simp [buildDataset, hloop]

/-- The arctan2 embedding always lands in the interval (-pi, pi]. -/
theorem arctan2_mem_Ioc (y x : ℝ) : arctan2 y x ∈ Set.Ioc (-π) π := by
  have hpi := Real.pi_pos
  have h1 := Real.arctan_mem_Ioo (y / x)
  rw [Set.mem_Ioo] at h1
  rw [Set.mem_Ioc]
  unfold arctan2
  split_ifs with hx hx2 hy hy2 hy3
  · exact ⟨by linarith [h1.1], by linarith [h1.2]⟩
  · have hyx : y / x ≤ 0 := div_nonpos_iff.mpr (Or.inl ⟨hy, hx2.le⟩)
    have harc : Real.arctan (y / x) ≤ 0 := by
      have := Real.arctan_strictMono.monotone hyx
      rwa [Real.arctan_zero] at this
    exact ⟨by linarith [h1.1], by linarith⟩
  · have hyx : 0 < y / x := div_pos_iff.mpr (Or.inr ⟨by linarith, hx2⟩)
    have harc : 0 < Real.arctan (y / x) := by
      have := Real.arctan_strictMono hyx
      rwa [Real.arctan_zero] at this
    exact ⟨by linarith, by linarith [h1.2]⟩
  · exact ⟨by linarith, by linarith⟩
  · exact ⟨by linarith, by linarith⟩
  · exact ⟨by linarith, by linarith⟩

/-- When the second argument is nonnegative (as it is for the elevation
computation, whose second argument is a square root), arctan2 lands in
[-pi/2, pi/2]. -/
theorem arctan2_mem_Icc_of_nonneg (y x : ℝ) (hx : 0 ≤ x) :
    arctan2 y x ∈ Set.Icc (-(π / 2)) (π / 2) := by
  have hpi := Real.pi_pos
  have h1 := Real.arctan_mem_Ioo (y / x)
  rw [Set.mem_Ioo] at h1
  rw [Set.mem_Icc]
  unfold arctan2
  split_ifs with hx1 hx2 hy hy2 hy3
  · exact ⟨h1.1.le, h1.2.le⟩
  · exact absurd hx2 (not_lt.mpr hx)
  · exact absurd hx2 (not_lt.mpr hx)
  · exact ⟨by linarith, by linarith⟩
  · exact ⟨by linarith, by linarith⟩
  · exact ⟨by linarith, by linarith⟩

/-- C3: the dip computed by the triangle geometry step (90 minus the
elevation in degrees, with values above 90 reflected to 180 minus dip)
lies in [0, 90] for every real input normal vector. -/
theorem dipOfNormal_range (nx ny nz : ℝ) :
    0 ≤ dipOfNormal nx ny nz ∧ dipOfNormal nx ny nz ≤ 90 := by
  have hpi := Real.pi_pos
  have he := arctan2_mem_Icc_of_nonneg nz (Real.sqrt (nx ^ 2 + ny ^ 2)) (Real.sqrt_nonneg _)
  rw [Set.mem_Icc] at he
  have hc : (cart2sph nx ny nz).2.1 = arctan2 nz (Real.sqrt (nx ^ 2 + ny ^ 2)) := rfl
  have hub : rad2deg (arctan2 nz (Real.sqrt (nx ^ 2 + ny ^ 2))) ≤ 90 := by
    unfold rad2deg
    rw [div_le_iff₀ hpi]
    nlinarith [he.2]
  have hlb : -90 ≤ rad2deg (arctan2 nz (Real.sqrt (nx ^ 2 + ny ^ 2))) := by
    unfold rad2deg
    rw [le_div_iff₀ hpi]
    nlinarith [he.1]
  unfold dipOfNormal dipRaw
  rw [hc]
  split_ifs <;> constructor <;> linarith

/-- C4: the strike computed by the triangle geometry step,
wrap2360 (-(rad2deg azimuth)) with azimuth the two-argument arctangent,
lies in [0, 360) for every nonzero input normal vector. -/
theorem strikeOfNormal_range (nx ny nz : ℝ) (h : (nx, ny, nz) ≠ (0, 0, 0)) :
    0 ≤ strikeOfNormal nx ny nz ∧ strikeOfNormal nx ny nz < 360 := by
  have hpi := Real.pi_pos
  have ha := arctan2_mem_Ioc ny nx
  rw [Set.mem_Ioc] at ha
  have hc : (cart2sph nx ny nz).1 = arctan2 ny nx := rfl
  have hub : rad2deg (arctan2 ny nx) ≤ 180 := by
    unfold rad2deg
    rw [div_le_iff₀ hpi]
    nlinarith [ha.2]
  have hlb : -180 < rad2deg (arctan2 ny nx) := by
    unfold rad2deg
    rw [lt_div_iff₀ hpi]
    nlinarith [ha.1]
  unfold strikeOfNormal wrap2360
  rw [hc]
  split_ifs <;> constructor <;> linarith

/-- C4 (witness): the strike of the concrete normal (1, 0, 0) is in
[0, 360). -/
theorem strikeOfNormal_range_witness :
    0 ≤ strikeOfNormal 1 0 0 ∧ strikeOfNormal 1 0 0 < 360 :=
  strikeOfNormal_range 1 0 0 (by simp)

/-- On the principal range (-pi, pi], arctan2 inverts the polar
parametrization scaled by any positive factor. -/
theorem arctan2_mul_sin_cos {c θ : ℝ} (hc : 0 < c) (h1 : -π < θ) (h2 : θ ≤ π) :
    arctan2 (c * Real.sin θ) (c * Real.cos θ) = θ := by
  have hpi := Real.pi_pos
  have hdiv : c * Real.sin θ / (c * Real.cos θ) = Real.tan θ := by
    rw [mul_div_mul_left _ _ (ne_of_gt hc), Real.tan_eq_sin_div_cos]
  rcases lt_trichotomy θ (π / 2) with hlt | heq | hgt
  · rcases lt_trichotomy θ (-(π / 2)) with hlt2 | heq2 | hgt2
    · -- θ in (-π, -π/2): cos θ < 0, sin θ < 0
      have hcos : Real.cos θ < 0 := by
        rw [← Real.cos_neg]
        exact Real.cos_neg_of_pi_div_two_lt_of_lt (by linarith) (by linarith)
      have hsin : Real.sin θ < 0 := Real.sin_neg_of_neg_of_neg_pi_lt (by linarith) h1
      have hx : c * Real.cos θ < 0 := mul_neg_of_pos_of_neg hc hcos
      have hy : c * Real.sin θ < 0 := mul_neg_of_pos_of_neg hc hsin
      unfold arctan2
      rw [if_neg (by linarith), if_pos hx, if_neg (by linarith), hdiv]
      rw [← Real.tan_add_pi, Real.arctan_tan (by linarith) (by linarith)]
      ring
    · -- θ = -π/2
      subst heq2
      have hcos : Real.cos (-(π / 2)) = 0 := by
        rw [Real.cos_neg, Real.cos_pi_div_two]
      have hsin : Real.sin (-(π / 2)) = -1 := by
        rw [Real.sin_neg, Real.sin_pi_div_two]
      unfold arctan2
      rw [hcos, mul_zero, hsin]
      rw [if_neg (lt_irrefl 0), if_neg (lt_irrefl 0),
        if_neg (by linarith : ¬0 < c * -1), if_pos (by linarith : c * -1 < 0)]
    · -- θ in (-π/2, π/2): cos θ > 0
      have hcos : 0 < Real.cos θ := Real.cos_pos_of_mem_Ioo ⟨hgt2, hlt⟩
      have hx : 0 < c * Real.cos θ := mul_pos hc hcos
      unfold arctan2
      rw [if_pos hx, hdiv, Real.arctan_tan hgt2 hlt]
  · -- θ = π/2
    subst heq
    unfold arctan2
    rw [Real.cos_pi_div_two, mul_zero, Real.sin_pi_div_two, mul_one]
    rw [if_neg (lt_irrefl 0), if_neg (lt_irrefl 0), if_pos hc]
  · -- θ in (π/2, π]: cos θ < 0, sin θ ≥ 0
    have hcos : Real.cos θ < 0 :=
      Real.cos_neg_of_pi_div_two_lt_of_lt hgt (by linarith)
    have hsin : 0 ≤ Real.sin θ := Real.sin_nonneg_of_nonneg_of_le_pi (by linarith) h2
    have hx : c * Real.cos θ < 0 := mul_neg_of_pos_of_neg hc hcos
    have hy : 0 ≤ c * Real.sin θ := mul_nonneg hc.le hsin
    unfold arctan2
    rw [if_neg (by linarith), if_pos hx, if_pos hy, hdiv]
    rw [← Real.tan_sub_pi, Real.arctan_tan (by linarith) (by linarith)]
    ring

/-- C5 (counterexample): sph2cart and cart2sph are not inverses.
sph2cart interprets its angles in degrees while cart2sph returns radians,
so the round trip at azimuth 90, elevation 0, radius 1 returns azimuth
pi/2, not 90. -/
theorem roundTrip_not_identity : (roundTrip 90 0 1).1 ≠ 90 := by
  have h90 : deg2rad 90 = π / 2 := by unfold deg2rad; ring
  have h0 : deg2rad (0 : ℝ) = 0 := by unfold deg2rad; ring
  have h : (roundTrip 90 0 1).1 = π / 2 := by
    unfold roundTrip sph2cart cart2sph
    rw [h90, h0, Real.cos_zero, Real.cos_pi_div_two, Real.sin_pi_div_two]
    norm_num [arctan2]
  rw [h]
  have h4 := Real.pi_le_four
  intro hcon
  linarith

/-- C5 (amended): for radius bigger than 0, azimuth in (-180, 180] degrees
and elevation in (-90, 90) degrees, composing sph2cart with cart2sph
recovers the radius exactly and the two angles converted to radians:
the functions are inverses only up to the degree-to-radian conversion
that sph2cart applies to its inputs. -/
theorem roundTrip_recovers_radians (az el r : ℝ)
    (h1 : -180 < az) (h2 : az ≤ 180) (h3 : -90 < el) (h4 : el < 90) (hr : 0 < r) :
    roundTrip az el r = (deg2rad az, deg2rad el, r) := by
  have hpi := Real.pi_pos
  have hA1 : -π < deg2rad az := by
    unfold deg2rad
    rw [lt_div_iff₀ (by norm_num : (0 : ℝ) < 180)]
    nlinarith
  have hA2 : deg2rad az ≤ π := by
    unfold deg2rad
    rw [div_le_iff₀ (by norm_num : (0 : ℝ) < 180)]
    nlinarith
  have hE1 : -(π / 2) < deg2rad el := by
    unfold deg2rad
    rw [lt_div_iff₀ (by norm_num : (0 : ℝ) < 180)]
    nlinarith
  have hE2 : deg2rad el < π / 2 := by
    unfold deg2rad
    rw [div_lt_iff₀ (by norm_num : (0 : ℝ) < 180)]
    nlinarith
  have hcosE : 0 < Real.cos (deg2rad el) := Real.cos_pos_of_mem_Ioo ⟨hE1, hE2⟩
  have hc : 0 < r * Real.cos (deg2rad el) := mul_pos hr hcosE
  have hxy : (r * Real.cos (deg2rad el) * Real.cos (deg2rad az)) ^ 2
      + (r * Real.cos (deg2rad el) * Real.sin (deg2rad az)) ^ 2
      = (r * Real.cos (deg2rad el)) ^ 2 := by
    linear_combination (r * Real.cos (deg2rad el)) ^ 2 * Real.sin_sq_add_cos_sq (deg2rad az)
  have hsum : (r * Real.cos (deg2rad el) * Real.cos (deg2rad az)) ^ 2
      + (r * Real.cos (deg2rad el) * Real.sin (deg2rad az)) ^ 2
      + (r * Real.sin (deg2rad el)) ^ 2 = r ^ 2 := by
    linear_combination (r * Real.cos (deg2rad el)) ^ 2 * Real.sin_sq_add_cos_sq (deg2rad az)
      + r ^ 2 * Real.sin_sq_add_cos_sq (deg2rad el)
  unfold roundTrip sph2cart cart2sph
  simp only [Prod.mk.injEq]
  refine ⟨?_, ?_, ?_⟩
  · exact arctan2_mul_sin_cos hc hA1 hA2
  · rw [hxy, Real.sqrt_sq hc.le]
    exact arctan2_mul_sin_cos hr (by linarith) (by linarith)
  · rw [hsum, Real.sqrt_sq hr.le]

/-- C5 (witness): roundTrip_recovers_radians at azimuth 0, elevation 0,
radius 1. -/
theorem roundTrip_recovers_radians_witness :
    roundTrip 0 0 1 = (deg2rad 0, deg2rad 0, 1) :=
  roundTrip_recovers_radians 0 0 1 (by norm_num) (by norm_num) (by norm_num)
    (by norm_num) (by norm_num)

/-- The depth offset vanishes exactly on zero depth. -/
theorem depthOffset_zero : depthOffset 0 = 0 := by
  unfold depthOffset rad2deg KM2M RADIUS_EARTH
  norm_num

/-- The depth offset of a nonzero depth is strictly positive. -/
theorem depthOffset_pos {d : ℝ} (hd : d ≠ 0) : 0 < depthOffset d := by
  unfold depthOffset rad2deg KM2M RADIUS_EARTH
  have hpi := Real.pi_pos
  have hne : (1000 : ℝ) * d / 6371000 ≠ 0 :=
    div_ne_zero (mul_ne_zero (by norm_num) hd) (by norm_num)
  have habs : 0 < |(1000 : ℝ) * d / 6371000| := abs_pos.mpr hne
  exact div_pos (mul_pos habs (by norm_num)) hpi

/-- A row all of whose vertex depths are zero is left unchanged by the
steep-dip offset. -/
theorem offsetRow_zero_depth (dd : ℝ) (r : MeshRow)
    (h1 : r.dep1 = 0) (h2 : r.dep2 = 0) (h3 : r.dep3 = 0) : offsetRow dd r = r := by
  cases r with
  | mk dip strike dep1 dep2 dep3 lon1 lat1 lon2 lat2 lon3 lat3 mesh_idx =>
    dsimp only at h1 h2 h3
    subst h1
    subst h2
    subst h3
    unfold offsetRow
    rw [depthOffset_zero]
    simp

/-- Adding a nonzero quantity changes a real number. -/
theorem add_ne_self {a c : ℝ} (hc : c ≠ 0) : a + c ≠ a := by
  intro h
  exact hc (by linarith)

/-- A row with some nonzero vertex depth is genuinely moved by the
steep-dip offset: the sine and cosine of the down-dip azimuth cannot both
vanish, so either the longitude or the latitude of that vertex changes. -/
theorem offsetRow_ne_of_dep_ne {dd : ℝ} {r : MeshRow}
    (h : r.dep1 ≠ 0 ∨ r.dep2 ≠ 0 ∨ r.dep3 ≠ 0) : offsetRow dd r ≠ r := by
  have htrig : Real.sin dd ≠ 0 ∨ Real.cos dd ≠ 0 := by
    by_contra hcon
    push_neg at hcon
    have h1 := Real.sin_sq_add_cos_sq dd
    rw [hcon.1, hcon.2] at h1
    norm_num at h1
  rcases h with hd | hd | hd
  · rcases htrig with ht | ht
    · intro heq
      exact add_ne_self (mul_ne_zero ht (ne_of_gt (depthOffset_pos hd)))
        (congrArg MeshRow.lon1 heq)
    · intro heq
      exact add_ne_self (mul_ne_zero ht (ne_of_gt (depthOffset_pos hd)))
        (congrArg MeshRow.lat1 heq)
  · rcases htrig with ht | ht
    · intro heq
      exact add_ne_self (mul_ne_zero ht (ne_of_gt (depthOffset_pos hd)))
        (congrArg MeshRow.lon2 heq)
    · intro heq
      exact add_ne_self (mul_ne_zero ht (ne_of_gt (depthOffset_pos hd)))
        (congrArg MeshRow.lat2 heq)
  · rcases htrig with ht | ht
    · intro heq
      exact add_ne_self (mul_ne_zero ht (ne_of_gt (depthOffset_pos hd)))
        (congrArg MeshRow.lon3 heq)
    · intro heq
      exact add_ne_self (mul_ne_zero ht (ne_of_gt (depthOffset_pos hd)))
        (congrArg MeshRow.lat3 heq)

/-- Mapping a function that fixes every member of a list is the
identity. -/
theorem list_map_self {α : Type} {f : α → α} (l : List α) (h : ∀ a ∈ l, f a = a) :
    l.map f = l := by
  induction l with
  | nil => rfl
  | cons a t ih =>
    rw [List.map_cons, h a (by simp), ih (fun b hb => h b (by simp [hb]))]

/-- Mapping a function that moves some member of a list changes the
list. -/
theorem list_map_ne_of_mem {α : Type} {f : α → α} {l : List α} {a : α}
    (ha : a ∈ l) (hfa : f a ≠ a) : l.map f ≠ l := by
  intro h
  have key : ∀ t : List α, t.map f = t → ∀ b ∈ t, f b = b := by
    intro t
    induction t with
    | nil =>
      intro _ b hb
      cases hb
    | cons c u ih =>
      intro hmap b hb
      simp only [List.map_cons, List.cons.injEq] at hmap
      rcases List.mem_cons.mp hb with rfl | hmem
      · exact hmap.1
      · exact ih hmap.2 b hmem
  exact hfa (key l h a ha)

/-- Pointwise equal functions give equal maps. -/
theorem list_map_congr {α β : Type} {f g : α → β} (l : List α)
    (h : ∀ a ∈ l, f a = g a) : l.map f = l.map g := by
  induction l with
  | nil => rfl
  | cons a t ih =>
    rw [List.map_cons, List.map_cons, h a (by simp), ih (fun b hb => h b (by simp [hb]))]

/-- C1 (counterexample): a group consisting of one element with dip 80
but all vertex depths zero has mean dip above 75 yet every vertex
coordinate is left unchanged by the steep-dip projector, because the
offset magnitude is proportional to depth. -/
theorem steep_group_zero_depth_unchanged :
    groupMeanDip [⟨80, 0, 0, 0, 0, 1, 2, 3, 4, 5, 6, 0⟩] > 75 ∧
      projectGroup [⟨80, 0, 0, 0, 0, 1, 2, 3, 4, 5, 6, 0⟩]
        = [⟨80, 0, 0, 0, 0, 1, 2, 3, 4, 5, 6, 0⟩] := by
  have hm : groupMeanDip [(⟨80, 0, 0, 0, 0, 1, 2, 3, 4, 5, 6, 0⟩ : MeshRow)] = 80 := by
    simp [groupMeanDip, mean]
  constructor
  · rw [hm]
    norm_num
  · unfold projectGroup
    rw [if_pos (by rw [hm]; norm_num)]
    apply list_map_self
    intro r hr
    rw [List.mem_singleton] at hr
    subst hr
    exact offsetRow_zero_depth _ _ rfl rfl rfl

/-- C1 (amended): the steep-dip projector changes the vertex coordinates
of a group if and only if the group mean dip strictly exceeds 75 degrees
and at least one vertex of the group has nonzero depth.  In particular a
group of dip 80 with a nonzero depth is changed, while groups of mean dip
70 or exactly 75 are left unchanged. -/
theorem projectGroup_modifies_iff (grp : List MeshRow) :
    projectGroup grp ≠ grp ↔
      (groupMeanDip grp > 75 ∧ ∃ r ∈ grp, r.dep1 ≠ 0 ∨ r.dep2 ≠ 0 ∨ r.dep3 ≠ 0) := by
  constructor
  · intro hne
    by_cases hm : groupMeanDip grp > 75
    · refine ⟨hm, ?_⟩
      by_contra hall
      push_neg at hall
      apply hne
      unfold projectGroup
      rw [if_pos hm]
      apply list_map_self
      intro r hr
      exact offsetRow_zero_depth _ _ (hall r hr).1 (hall r hr).2.1 (hall r hr).2.2
    · exfalso
      apply hne
      unfold projectGroup
      rw [if_neg hm]
  · rintro ⟨hm, r, hr, hdep⟩
    unfold projectGroup
    rw [if_pos hm]
    exact list_map_ne_of_mem hr (offsetRow_ne_of_dep_ne hdep)

/-- The depth offset, with the constants written out the way the claim
states them. -/
theorem depthOffset_eq (d : ℝ) : depthOffset d = rad2deg |d * 1000 / 6371000| := by
  unfold depthOffset KM2M RADIUS_EARTH
  rw [show (1000 : ℝ) * d / 6371000 = d * 1000 / 6371000 by ring]

/-- C2: for a group whose mean dip exceeds 75 degrees, every element has
each vertex longitude incremented by sin (dip dir) times
rad2deg (abs (depth * 1000 / 6371000)) and each vertex latitude by
cos (dip dir) times the same quantity, using the depth of that vertex,
where dip dir is the group mean of deg2rad (strike + 90). -/
theorem projectGroup_offset_formula (grp : List MeshRow) (h : groupMeanDip grp > 75) :
    projectGroup grp = grp.map (fun r =>
      { r with
        lon1 := r.lon1 + Real.sin (mean (grp.map (fun s => deg2rad (s.strike + 90))))
          * rad2deg |r.dep1 * 1000 / 6371000|,
        lat1 := r.lat1 + Real.cos (mean (grp.map (fun s => deg2rad (s.strike + 90))))
          * rad2deg |r.dep1 * 1000 / 6371000|,
        lon2 := r.lon2 + Real.sin (mean (grp.map (fun s => deg2rad (s.strike + 90))))
          * rad2deg |r.dep2 * 1000 / 6371000|,
        lat2 := r.lat2 + Real.cos (mean (grp.map (fun s => deg2rad (s.strike + 90))))
          * rad2deg |r.dep2 * 1000 / 6371000|,
        lon3 := r.lon3 + Real.sin (mean (grp.map (fun s => deg2rad (s.strike + 90))))
          * rad2deg |r.dep3 * 1000 / 6371000|,
        lat3 := r.lat3 + Real.cos (mean (grp.map (fun s => deg2rad (s.strike + 90))))
          * rad2deg |r.dep3 * 1000 / 6371000| }) := by
  unfold projectGroup
  rw [if_pos h]
  apply list_map_congr
  intro r _
  unfold offsetRow groupDipDir
  rw [depthOffset_eq r.dep1, depthOffset_eq r.dep2, depthOffset_eq r.dep3]

/-- C2 (witness): the offset formula applied to the concrete
one-element group of dip 80, strike 0, depths 1, 2, 3. -/
theorem projectGroup_offset_formula_witness :
    projectGroup [(⟨80, 0, 1, 2, 3, 10, 20, 30, 40, 50, 60, 0⟩ : MeshRow)]
      = [(⟨80, 0, 1, 2, 3, 10, 20, 30, 40, 50, 60, 0⟩ : MeshRow)].map (fun r =>
        { r with
          lon1 := r.lon1 + Real.sin (mean ([(⟨80, 0, 1, 2, 3, 10, 20, 30, 40, 50, 60, 0⟩ :
              MeshRow)].map (fun s => deg2rad (s.strike + 90))))
            * rad2deg |r.dep1 * 1000 / 6371000|,
          lat1 := r.lat1 + Real.cos (mean ([(⟨80, 0, 1, 2, 3, 10, 20, 30, 40, 50, 60, 0⟩ :
              MeshRow)].map (fun s => deg2rad (s.strike + 90))))
            * rad2deg |r.dep1 * 1000 / 6371000|,
          lon2 := r.lon2 + Real.sin (mean ([(⟨80, 0, 1, 2, 3, 10, 20, 30, 40, 50, 60, 0⟩ :
              MeshRow)].map (fun s => deg2rad (s.strike + 90))))
            * rad2deg |r.dep2 * 1000 / 6371000|,
          lat2 := r.lat2 + Real.cos (mean ([(⟨80, 0, 1, 2, 3, 10, 20, 30, 40, 50, 60, 0⟩ :
              MeshRow)].map (fun s => deg2rad (s.strike + 90))))
            * rad2deg |r.dep2 * 1000 / 6371000|,
          lon3 := r.lon3 + Real.sin (mean ([(⟨80, 0, 1, 2, 3, 10, 20, 30, 40, 50, 60, 0⟩ :
              MeshRow)].map (fun s => deg2rad (s.strike + 90))))
            * rad2deg |r.dep3 * 1000 / 6371000|,
          lat3 := r.lat3 + Real.cos (mean ([(⟨80, 0, 1, 2, 3, 10, 20, 30, 40, 50, 60, 0⟩ :
              MeshRow)].map (fun s => deg2rad (s.strike + 90))))
            * rad2deg |r.dep3 * 1000 / 6371000| }) :=
  projectGroup_offset_formula _ (by simp [groupMeanDip, mean]; norm_num)

/-- Modelled from the spec (section 7, DegenerateGeometryWarning): the
group mean dip as the spec prescribes it, taken over only the elements
whose cross-product normal is nonzero, i.e. with degenerate (collinear)
elements excluded.  The code itself has no such exclusion; this
definition exists to compare the spec text against the code. -/
def meanDipExcludingDegenerate (els : List MeshVertexRow) : ℝ :=
  mean ((els.filter (fun e => normVec e ≠ (0, 0, 0))).map elementDip)

/-- An element with zero normal gets dip 90 and strike 0: cart2sph at the
origin returns azimuth 0 and elevation 0, so dip = 90 - 0 = 90 (not
reflected) and strike = wrap2360 0 = 0. -/
theorem dip_strike_of_zero_normal (e : MeshVertexRow) (h : normVec e = (0, 0, 0)) :
    elementDip e = 90 ∧ elementStrike e = 0 := by
  constructor
  · unfold elementDip
    rw [h]
    norm_num [dipOfNormal, dipRaw, cart2sph, arctan2, rad2deg]
  · unfold elementStrike
    rw [h]
    norm_num [strikeOfNormal, cart2sph, arctan2, rad2deg, wrap2360]

/-- The degenerate example element: all three vertices at the same point
(lon 10, lat 20, depth -3). -/
def degEl : MeshVertexRow := ⟨10, 20, -3, 10, 20, -3, 10, 20, -3, 0⟩

/-- The flat example element: three distinct vertices at equal depth. -/
def flatEl : MeshVertexRow := ⟨0, 0, 0, 1, 0, 0, 0, 1, 0, 0⟩

/-- The degenerate example element has zero normal. -/
theorem normVec_degEl : normVec degEl = (0, 0, 0) := by
  norm_num [degEl, normVec, triLeg1, triLeg2, cross3, deg2rad]

/-- The flat example element has normal (0, 0, (pi/180)^2). -/
theorem normVec_flatEl : normVec flatEl = (0, 0, (π / 180) * (π / 180)) := by
  norm_num [flatEl, normVec, triLeg1, triLeg2, cross3, deg2rad]

/-- The flat example element has nonzero normal. -/
theorem normVec_flatEl_ne : normVec flatEl ≠ (0, 0, 0) := by
  rw [normVec_flatEl]
  have hpi := Real.pi_pos
  intro hcon
  rw [Prod.mk.injEq, Prod.mk.injEq] at hcon
  nlinarith [hcon.2.2]

/-- The flat example element has dip 0. -/
theorem elementDip_flatEl : elementDip flatEl = 0 := by
  have hpi := Real.pi_pos
  have hpins := Real.pi_ne_zero
  unfold elementDip
  rw [normVec_flatEl]
  have hpos : (0 : ℝ) < π / 180 * (π / 180) := by positivity
  have helev : (cart2sph 0 0 (π / 180 * (π / 180))).2.1 = π / 2 := by
    unfold cart2sph arctan2
    norm_num [hpos]
  unfold dipOfNormal dipRaw
  rw [helev]
  rw [show rad2deg (π / 2) = 90 by unfold rad2deg; field_simp; ring]
  norm_num

/-- C7 (amended): a mesh element whose cross-product normal has zero
magnitude is not flagged and not excluded: it is carried through with
dip 90 and strike 0 (ordinary in-range values, not sentinels) and fully
participates in the mean-dip computation of its group; the load does not
abort on it. -/
theorem degenerate_element_behaviour (e : MeshVertexRow) (h : normVec e = (0, 0, 0)) :
    elementDip e = 90 ∧ elementStrike e = 0 ∧ groupMeanDip [toMeshRow e] = 90 := by
  obtain ⟨h1, h2⟩ := dip_strike_of_zero_normal e h
  refine ⟨h1, h2, ?_⟩
  simp [groupMeanDip, mean, toMeshRow, h1]

/-- C7 (witness): degenerate_element_behaviour at the concrete collapsed
element degEl. -/
theorem degenerate_element_behaviour_witness :
    elementDip degEl = 90 ∧ elementStrike degEl = 0 ∧
      groupMeanDip [toMeshRow degEl] = 90 :=
  degenerate_element_behaviour degEl (by
    norm_num [degEl, normVec, triLeg1, triLeg2, cross3, deg2rad])

/-- C7 (counterexample): in the group consisting of the degenerate
element degEl and the flat element flatEl, the mean dip the code computes
(45, because the degenerate element contributes dip 90) differs from the
mean dip with degenerate elements excluded as the claim requires (0), so
degenerate elements are not excluded from the mean-dip computation. -/
theorem degenerate_included_in_mean :
    groupMeanDip ([degEl, flatEl].map toMeshRow)
      ≠ meanDipExcludingDegenerate [degEl, flatEl] := by
  have h90 : elementDip degEl = 90 := (dip_strike_of_zero_normal degEl normVec_degEl).1
  have h0 : elementDip flatEl = 0 := elementDip_flatEl
  have hL : groupMeanDip ([degEl, flatEl].map toMeshRow) = 45 := by
    simp [groupMeanDip, mean, toMeshRow, h90, h0]
    norm_num
  have hR : meanDipExcludingDegenerate [degEl, flatEl] = 0 := by
    unfold meanDipExcludingDegenerate
    rw [List.filter_cons, List.filter_cons, List.filter_nil]
    rw [if_neg (by simp [normVec_degEl]), if_pos (by simpa using normVec_flatEl_ne)]
    simp [mean, h0]
  rw [hL, hR]
  norm_num

/-- The masked offset never changes the group index of a row. -/
theorem maskOffset_mesh_idx (dd : ℝ) (i0 : ℤ) (r : MeshRow) :
    (maskOffset dd i0 r).mesh_idx = r.mesh_idx := by
  unfold maskOffset
  split <;> rfl

/-- The masked offset never changes the dip of a row. -/
theorem maskOffset_dip (dd : ℝ) (i0 : ℤ) (r : MeshRow) :
    (maskOffset dd i0 r).dip = r.dip := by
  unfold maskOffset
  split <;> rfl

/-- One masked update leaves the dip list of every group unchanged: the offset
touches only vertex coordinates. -/
theorem groupDips_map_maskOffset (dd : ℝ) (i0 i : ℤ) (rows : List MeshRow) :
    groupDips (rows.map (maskOffset dd i0)) i = groupDips rows i := by
  induction rows with
  | nil => rfl
  | cons r t ih =>
    unfold groupDips at ih ⊢
    rw [List.map_cons, List.filter_cons, List.filter_cons, maskOffset_mesh_idx]
    by_cases h : r.mesh_idx = i
    · rw [if_pos (by simpa using h), if_pos (by simpa using h),
        List.map_cons, List.map_cons, maskOffset_dip, ih]
    · rw [if_neg (by simpa using h), if_neg (by simpa using h), ih]

/-- The numpy flag write fails exactly on indices outside [-n, n). -/
theorem npSetFlag_none_iff (flags : List ℕ) (i : ℤ) (v : ℕ) :
    npSetFlag flags i v = none ↔
      (i < -(flags.length : ℤ) ∨ (flags.length : ℤ) ≤ i) := by
  unfold npSetFlag
  split_ifs with h1 h2
  · exact iff_of_false (by simp) (by omega)
  · exact iff_of_false (by simp) (by omega)
  · exact iff_of_true rfl (by omega)

/-- A successful numpy flag write preserves the array length. -/
theorem npSetFlag_some_length {flags flags2 : List ℕ} {i : ℤ} {v : ℕ}
    (h : npSetFlag flags i v = some flags2) : flags2.length = flags.length := by
  unfold npSetFlag at h
  split_ifs at h
  · rw [← Option.some.inj h, List.length_set]
  · rw [← Option.some.inj h, List.length_set]

/-- The loop aborts exactly when some remaining group id is steep and
falls outside the numpy-indexable range [-n, n) of the flag array; the
group dips may be read off any list of rows with the same per-group dips
as the current one. -/
theorem steepLoopAux_none_iff (ids : List ℤ) :
    ∀ (flags : List ℕ) (rows rows0 : List MeshRow),
      (∀ j, groupDips rows j = groupDips rows0 j) →
      (steepLoopAux ids flags rows = none ↔
        ∃ i ∈ ids, 75 < mean (groupDips rows0 i) ∧
          (i < -(flags.length : ℤ) ∨ (flags.length : ℤ) ≤ i)) := by
  induction ids with
  | nil =>
    intro flags rows rows0 hg
    simp [steepLoopAux]
  | cons i rest ih =>
    intro flags rows rows0 hg
    unfold steepLoopAux
    rw [hg i]
    by_cases hm : mean (groupDips rows0 i) > 75
    · rw [if_pos hm]
      cases hset : npSetFlag flags i 1 with
      | none =>
        rw [Option.none_bind]
        exact iff_of_true rfl
          ⟨i, List.mem_cons_self i rest, hm, (npSetFlag_none_iff flags i 1).mp hset⟩
      | some flags2 =>
        rw [Option.some_bind]
        have hlen := npSetFlag_some_length hset
        have hok : ¬(i < -(flags.length : ℤ) ∨ (flags.length : ℤ) ≤ i) := by
          intro hcon
          have hc2 := (npSetFlag_none_iff flags i 1).mpr hcon
          rw [hset] at hc2
          exact Option.some_ne_none flags2 hc2
        have hcong : ∀ j,
            groupDips (rows.map (maskOffset (groupDipDirAt rows i) i)) j
              = groupDips rows0 j := by
          intro j
          rw [groupDips_map_maskOffset]
          exact hg j
        rw [ih flags2 _ rows0 hcong, hlen]
        constructor
        · rintro ⟨j, hj, hmj, hb⟩
          exact ⟨j, List.mem_cons_of_mem i hj, hmj, hb⟩
        · rintro ⟨j, hj, hmj, hb⟩
          rcases List.mem_cons.mp hj with rfl | hj2
          · exact absurd hb hok
          · exact ⟨j, hj2, hmj, hb⟩
    · rw [if_neg hm]
      rw [ih flags rows rows0 hg]
      constructor
      · rintro ⟨j, hj, hmj, hb⟩
        exact ⟨j, List.mem_cons_of_mem i hj, hmj, hb⟩
      · rintro ⟨j, hj, hmj, hb⟩
        rcases List.mem_cons.mp hj with rfl | hj2
        · exact absurd hmj hm
        · exact ⟨j, hj2, hmj, hb⟩

/-- C10 (counterexample): a single steep group with the negative id -1
(mean dip 80, one distinct id, so the flag array has length 1) completes
the load without any indexing error, because the numpy write
proj_mesh_flag [-1] = 1 wraps around to the last slot; yet its id does
not lie in [0, number of distinct ids), refuting the claimed
completes-only-if-ids-in-range direction. -/
theorem steep_negative_id_completes :
    steepLoop [⟨80, 0, -10, -10, -10, 1, 2, 3, 4, 5, 6, -1⟩] ≠ none ∧
      75 < mean (groupDips [⟨80, 0, -10, -10, -10, 1, 2, 3, 4, 5, 6, -1⟩] (-1)) ∧
      ¬(0 ≤ (-1 : ℤ)) := by
  have hml : meshList [(⟨80, 0, -10, -10, -10, 1, 2, 3, 4, 5, 6, -1⟩ : MeshRow)]
      = [-1] := by
    simp [meshList]
  have hmean : mean (groupDips [(⟨80, 0, -10, -10, -10, 1, 2, 3, 4, 5, 6, -1⟩ :
      MeshRow)] (-1)) = 80 := by
    simp [groupDips, mean]
  refine ⟨?_, by rw [hmean]; norm_num, by norm_num⟩
  intro hnone
  unfold steepLoop at hnone
  rw [steepLoopAux_none_iff _ _ _ _ (fun j => rfl)] at hnone
  obtain ⟨i, hi, _, hb⟩ := hnone
  rw [hml, List.mem_singleton] at hi
  subst hi
  rw [List.length_replicate, hml] at hb
  simp at hb

/-- C10 (amended): the per-group flag array is sized by the number n of
distinct mesh_idx values and written at the index equal to the group id
itself with numpy integer-indexing semantics, so the load completes
without an indexing error if and only if every group id with mean dip
above 75 lies in [-n, n): a steep id at least n, or below -n, fails with
an out-of-bounds error, while a steep id in [-n, 0) completes by
silently wrapping around to slot n + id. -/
theorem steepLoop_none_iff (rows : List MeshRow) :
    steepLoop rows = none ↔
      ∃ i ∈ meshList rows, 75 < mean (groupDips rows i) ∧
        (i < -((meshList rows).length : ℤ) ∨ ((meshList rows).length : ℤ) ≤ i) := by
  unfold steepLoop
  rw [steepLoopAux_none_iff (meshList rows) _ rows rows (fun j => rfl)]
  rw [List.length_replicate]
